import Mathlib

/-!
Shallow embedding of `iptables.cc` from the firewalld repository.

External command execution (`ExecvNonRoot`, `brillo::ProcessImpl::Run`) is
modelled by an oracle `World` that records every issued argument vector in
order and answers each invocation with the next value of an arbitrary
environment function `env : Nat → Bool` (`true` = exit status 0).
The mutable members of class `IpTables` (`ip6_enabled_`, `tcp_holes_`,
`udp_holes_`) form the state `IpTablesState`; hole sets are represented as
duplicate-free lists.
-/

namespace Firewalld

/-- `ProtocolEnum` from the header: transport protocols handled by the hole API. -/
inductive ProtocolEnum where
  | tcp
  | udp
deriving DecidableEq, Repr

/-- `IPVersionEnum` from the header: which `ip` invocation to build. -/
inductive IPVersionEnum where
  | v4
  | v6
deriving DecidableEq, Repr

/-- `kIpTablesPath` (the `__ANDROID__` branch of `iptables.cc`). -/
def kIpTablesPath : String := "/system/bin/iptables"

/-- `kIp6TablesPath` (the `__ANDROID__` branch of `iptables.cc`). -/
def kIp6TablesPath : String := "/system/bin/ip6tables"

/-- `kIpPath` (the `__ANDROID__` branch of `iptables.cc`). -/
def kIpPath : String := "/system/bin/ip"

/-- `kInterfaceNameSize`: interface names must be shorter than this. -/
def kInterfaceNameSize : Nat := 16

/-- `kMarkForUserTraffic`. -/
def kMarkForUserTraffic : String := "1"

/-- `kTableIdForUserTraffic`. -/
def kTableIdForUserTraffic : String := "1"

/-- ASCII `std::isalnum`. -/
def isAlnum (c : Char) : Bool :=
  (('a' ≤ c && c ≤ 'z') || ('A' ≤ c && c ≤ 'Z') || ('0' ≤ c && c ≤ '9'))

/-- `base::StartsWith(s, c)` for a one-character pattern, on the char list. -/
def startsWithChar (l : List Char) (c : Char) : Bool :=
  match l with
  | [] => false
  | x :: _ => x == c

/-- `base::EndsWith(s, c)` for a one-character pattern, on the char list. -/
def endsWithChar (l : List Char) (c : Char) : Bool :=
  match l.getLast? with
  | none => false
  | some x => x == c

/-- `IsValidInterfaceName` from `iptables.cc` (anonymous namespace). -/
def IsValidInterfaceName (iface : String) : Bool :=
  let l := iface.toList
  if l.length ≥ kInterfaceNameSize then
    false
  else if startsWithChar l '-' || endsWithChar l '-' ||
          startsWithChar l '.' || endsWithChar l '.' then
    false
  else
    l.all (fun c => isAlnum c || c == '-' || c == '.')

/-- The oracle for external command execution: `env` answers the `n`-th
    issued command, `idx` counts commands issued so far, `trace` records
    every argument vector in issue order. -/
structure World where
  env : Nat → Bool
  idx : Nat
  trace : List (List String)

/-- Issue one external command: record its argv, consume one oracle answer. -/
def execv (argv : List String) (w : World) : Bool × World :=
  (w.env w.idx, ⟨w.env, w.idx + 1, w.trace ++ [argv]⟩)

/-- The argv built by `IpTables::AddAcceptRule`:
    `<tool> -I INPUT -p {tcp|udp} --dport <port> [-i <iface>] -j ACCEPT -w`. -/
def addAcceptArgv (executable_path : String) (protocol : ProtocolEnum)
    (port : Nat) (interface : String) : List String :=
  [executable_path, "-I", "INPUT", "-p",
   (if protocol = ProtocolEnum.tcp then "tcp" else "udp"),
   "--dport", toString port]
  ++ (if interface.isEmpty then [] else ["-i", interface])
  ++ ["-j", "ACCEPT", "-w"]

/-- The argv built by `IpTables::DeleteAcceptRule`:
    `<tool> -D INPUT -p {tcp|udp} --dport <port> [-i <iface>] -j ACCEPT -w`. -/
def delAcceptArgv (executable_path : String) (protocol : ProtocolEnum)
    (port : Nat) (interface : String) : List String :=
  [executable_path, "-D", "INPUT", "-p",
   (if protocol = ProtocolEnum.tcp then "tcp" else "udp"),
   "--dport", toString port]
  ++ (if interface = "" then [] else ["-i", interface])
  ++ ["-j", "ACCEPT", "-w"]

/-- `IpTables::AddAcceptRule`: build the insert argv and run it. -/
def AddAcceptRule (executable_path : String) (protocol : ProtocolEnum)
    (port : Nat) (interface : String) (w : World) : Bool × World :=
  execv (addAcceptArgv executable_path protocol port interface) w

/-- `IpTables::DeleteAcceptRule`: build the delete argv and run it. -/
def DeleteAcceptRule (executable_path : String) (protocol : ProtocolEnum)
    (port : Nat) (interface : String) (w : World) : Bool × World :=
  execv (delAcceptArgv executable_path protocol port interface) w

/-- The argv built by `IpTables::ApplyMasquerade`:
    `<tool> -t nat {-A|-D} POSTROUTING -o <iface> -j MASQUERADE`. -/
def masqueradeArgv (executable_path : String) (interface : String)
    (add : Bool) : List String :=
  [executable_path, "-t", "nat", (if add then "-A" else "-D"), "POSTROUTING",
   "-o", interface, "-j", "MASQUERADE"]

/-- `IpTables::ApplyMasquerade`: build the masquerade argv and run it. -/
def ApplyMasquerade (executable_path : String) (interface : String)
    (add : Bool) (w : World) : Bool × World :=
  execv (masqueradeArgv executable_path interface add) w

/-- The argv built by `IpTables::ApplyMarkForUserTraffic`:
    `<tool> -t mangle {-A|-D} OUTPUT -m owner --uid-owner <user> -j MARK --set-mark 1`. -/
def markArgv (executable_path : String) (user_name : String)
    (add : Bool) : List String :=
  [executable_path, "-t", "mangle", (if add then "-A" else "-D"), "OUTPUT",
   "-m", "owner", "--uid-owner", user_name, "-j", "MARK", "--set-mark",
   kMarkForUserTraffic]

/-- `IpTables::ApplyMarkForUserTraffic`: build the mark argv and run it. -/
def ApplyMarkForUserTraffic (executable_path : String) (user_name : String)
    (add : Bool) (w : World) : Bool × World :=
  execv (markArgv executable_path user_name add) w

/-- The argv built by `IpTables::ApplyRuleForUserTraffic`:
    `<ip> [-6] rule {add|delete} fwmark 1 table 1`. -/
def ipRuleArgv (ip_version : IPVersionEnum) (add : Bool) : List String :=
  [kIpPath]
  ++ (if ip_version = IPVersionEnum.v6 then ["-6"] else [])
  ++ ["rule", (if add then "add" else "delete"), "fwmark",
      kMarkForUserTraffic, "table", kTableIdForUserTraffic]

/-- `IpTables::ApplyRuleForUserTraffic`: build the `ip rule` argv and run it. -/
def ApplyRuleForUserTraffic (ip_version : IPVersionEnum) (add : Bool)
    (w : World) : Bool × World :=
  execv (ipRuleArgv ip_version add) w

/-- A punched hole: `(port, interface)` as in `IpTables::Hole`. -/
abbrev Hole := Nat × String

/-- The mutable members of class `IpTables`: the dual-stack capability flag
    `ip6_enabled_` and the two hole registries (sets modelled as
    duplicate-free lists). -/
structure IpTablesState where
  ip6_enabled : Bool
  tcp_holes : List Hole
  udp_holes : List Hole
deriving DecidableEq, Repr

/-- The state after `IpTables::IpTables()` (the `__ANDROID__` constructor
    sets `ip6_enabled_ = false`; both hole sets start empty). -/
def initState : IpTablesState :=
  { ip6_enabled := false, tcp_holes := [], udp_holes := [] }

/-- The hole set a `ProtocolEnum` selects (`&tcp_holes_` / `&udp_holes_`). -/
def getHoles (protocol : ProtocolEnum) (s : IpTablesState) : List Hole :=
  match protocol with
  | ProtocolEnum.tcp => s.tcp_holes
  | ProtocolEnum.udp => s.udp_holes

/-- Write back the hole set a `ProtocolEnum` selects. -/
def setHoles (protocol : ProtocolEnum) (holes : List Hole)
    (s : IpTablesState) : IpTablesState :=
  match protocol with
  | ProtocolEnum.tcp => { s with tcp_holes := holes }
  | ProtocolEnum.udp => { s with udp_holes := holes }

/-- `IpTables::AddAcceptRules`: add on `iptables`; abort on its failure.
    Then add on `ip6tables`; on success set `ip6_enabled_`; on failure with
    `ip6_enabled_` already set, delete the `iptables` rule just added and
    fail; on failure with the flag clear, ignore and succeed. -/
def AddAcceptRules (protocol : ProtocolEnum) (port : Nat) (interface : String)
    (s : IpTablesState) (w : World) : Bool × IpTablesState × World :=
  let r4 := AddAcceptRule kIpTablesPath protocol port interface w
  if !r4.1 then
    (false, s, r4.2)
  else
    let r6 := AddAcceptRule kIp6TablesPath protocol port interface r4.2
    if r6.1 then
      (true, { s with ip6_enabled := true }, r6.2)
    else if s.ip6_enabled then
      let rdel := DeleteAcceptRule kIpTablesPath protocol port interface r6.2
      (false, s, rdel.2)
    else
      (true, s, r6.2)

/-- `IpTables::DeleteAcceptRules`: always delete on `iptables`; delete on
    `ip6tables` only when `ip6_enabled_`; result is the conjunction. -/
def DeleteAcceptRules (protocol : ProtocolEnum) (port : Nat)
    (interface : String) (s : IpTablesState) (w : World) :
    Bool × IpTablesState × World :=
  let r4 := DeleteAcceptRule kIpTablesPath protocol port interface w
  if s.ip6_enabled then
    let r6 := DeleteAcceptRule kIp6TablesPath protocol port interface r4.2
    (r4.1 && r6.1, s, r6.2)
  else
    (r4.1, s, r4.2)

/-- `IpTables::PunchHole`: reject port 0 and invalid interface names; succeed
    silently when the hole is already tracked; otherwise add accept rules and
    track the hole on success. -/
def PunchHole (port : Nat) (interface : String) (protocol : ProtocolEnum)
    (s : IpTablesState) (w : World) : Bool × IpTablesState × World :=
  if port = 0 then
    (false, s, w)
  else if !IsValidInterfaceName interface then
    (false, s, w)
  else
    let hole : Hole := (port, interface)
    if hole ∈ getHoles protocol s then
      (true, s, w)
    else
      let r := AddAcceptRules protocol port interface s w
      if !r.1 then
        (false, r.2.1, r.2.2)
      else
        (true, setHoles protocol (hole :: getHoles protocol r.2.1) r.2.1, r.2.2)

/-- `IpTables::PlugHole`: reject port 0; fail when the hole is not tracked;
    otherwise delete accept rules and stop tracking the hole on success. -/
def PlugHole (port : Nat) (interface : String) (protocol : ProtocolEnum)
    (s : IpTablesState) (w : World) : Bool × IpTablesState × World :=
  if port = 0 then
    (false, s, w)
  else
    let hole : Hole := (port, interface)
    if hole ∉ getHoles protocol s then
      (false, s, w)
    else
      let r := DeleteAcceptRules protocol port interface s w
      if !r.1 then
        (false, r.2.1, r.2.2)
      else
        (true, setHoles protocol ((getHoles protocol r.2.1).erase hole) r.2.1,
         r.2.2)

/-- `IpTables::PunchTcpHole`. -/
def PunchTcpHole (in_port : Nat) (in_interface : String) (s : IpTablesState)
    (w : World) : Bool × IpTablesState × World :=
  PunchHole in_port in_interface ProtocolEnum.tcp s w

/-- `IpTables::PunchUdpHole`. -/
def PunchUdpHole (in_port : Nat) (in_interface : String) (s : IpTablesState)
    (w : World) : Bool × IpTablesState × World :=
  PunchHole in_port in_interface ProtocolEnum.udp s w

/-- `IpTables::PlugTcpHole`. -/
def PlugTcpHole (in_port : Nat) (in_interface : String) (s : IpTablesState)
    (w : World) : Bool × IpTablesState × World :=
  PlugHole in_port in_interface ProtocolEnum.tcp s w

/-- `IpTables::PlugUdpHole`. -/
def PlugUdpHole (in_port : Nat) (in_interface : String) (s : IpTablesState)
    (w : World) : Bool × IpTablesState × World :=
  PlugHole in_port in_interface ProtocolEnum.udp s w

/-- The loop body of `IpTables::PlugAllHoles` over one snapshot: plug each
    hole of the snapshot through `PlugHole`, ignoring the returned boolean
    as the source does. -/
def plugHolesList (snapshot : List Hole) (protocol : ProtocolEnum)
    (s : IpTablesState) (w : World) : IpTablesState × World :=
  match snapshot with
  | [] => (s, w)
  | hole :: rest =>
    let r := PlugHole hole.1 hole.2 protocol s w
    plugHolesList rest protocol r.2.1 r.2.2

/-- `IpTables::PlugAllHoles`: snapshot and plug the TCP holes, then snapshot
    and plug the UDP holes; the final `CHECK`s that both registries are empty
    are modelled as `none` (process abort) when they fail. -/
def PlugAllHoles (s : IpTablesState) (w : World) :
    Option (IpTablesState × World) :=
  let rtcp := plugHolesList s.tcp_holes ProtocolEnum.tcp s w
  let rudp := plugHolesList rtcp.1.udp_holes ProtocolEnum.udp rtcp.1 rtcp.2
  if rudp.1.tcp_holes.length = 0 then
    if rudp.1.udp_holes.length = 0 then some rudp else none
  else
    none

/-- `IpTables::ApplyMasquerade46`: apply on `iptables`; when adding, a
    primary failure returns immediately; otherwise also apply on `ip6tables`;
    result is the conjunction of the attempts made. -/
def ApplyMasquerade46 (interface : String) (add : Bool) (w : World) :
    Bool × World :=
  let r4 := ApplyMasquerade kIpTablesPath interface add w
  if !r4.1 && add then
    (false, r4.2)
  else
    let r6 := ApplyMasquerade kIp6TablesPath interface add r4.2
    (r4.1 && r6.1, r6.2)

/-- `IpTables::ApplyMarkForUserTraffic46`: apply on `iptables`; when adding,
    a primary failure returns immediately; otherwise also apply on
    `ip6tables`; result is the conjunction of the attempts made. -/
def ApplyMarkForUserTraffic46 (username : String) (add : Bool) (w : World) :
    Bool × World :=
  let r4 := ApplyMarkForUserTraffic kIpTablesPath username add w
  if !r4.1 && add then
    (false, r4.2)
  else
    let r6 := ApplyMarkForUserTraffic kIp6TablesPath username add r4.2
    (r4.1 && r6.1, r6.2)

/-- The `add = false` run of `IpTables::ApplyVpnSetup` over the username
    loop: delete each username's mark rules, conjoining the results into
    `return_value`, never aborting. -/
def markUsersDel (usernames : List String) (return_value : Bool) (w : World) :
    Bool × World :=
  match usernames with
  | [] => (return_value, w)
  | username :: rest =>
    let r := ApplyMarkForUserTraffic46 username false w
    markUsersDel rest (return_value && r.1) r.2

/-- The `add = false` branch of `IpTables::ApplyVpnSetup`: attempt every
    step unconditionally (IPv4 rule, IPv6 rule, masquerade, every username's
    mark rules) and return the conjunction of all outcomes. -/
def applyVpnTeardown (usernames : List String) (interface : String)
    (w : World) : Bool × World :=
  let r1 := ApplyRuleForUserTraffic IPVersionEnum.v4 false w
  let r2 := ApplyRuleForUserTraffic IPVersionEnum.v6 false r1.2
  let r3 := ApplyMasquerade46 interface false r2.2
  markUsersDel usernames (r1.1 && r2.1 && r3.1) r3.2

/-- The `add = true` run of `IpTables::ApplyVpnSetup` over the username
    loop: add each username's mark rules in order; on the first failure,
    tear down the usernames added so far (`added_usernames`) together with
    the fixed steps, and abort with failure. -/
def markUsersAdd (usernames : List String) (interface : String)
    (added_usernames : List String) (w : World) : Bool × World :=
  match usernames with
  | [] => (true, w)
  | username :: rest =>
    let r := ApplyMarkForUserTraffic46 username true w
    if !r.1 then
      let rb := applyVpnTeardown added_usernames interface r.2
      (false, rb.2)
    else
      markUsersAdd rest interface (added_usernames ++ [username]) r.2

/-- The `add = true` branch of `IpTables::ApplyVpnSetup`: IPv4 rule, IPv6
    rule, masquerade, then the username loop; each failure rolls back by the
    recursive `add = false` call over the usernames added so far and aborts. -/
def applyVpnAdd (usernames : List String) (interface : String) (w : World) :
    Bool × World :=
  let r1 := ApplyRuleForUserTraffic IPVersionEnum.v4 true w
  if !r1.1 then
    (false, r1.2)
  else
    let r2 := ApplyRuleForUserTraffic IPVersionEnum.v6 true r1.2
    if !r2.1 then
      let rb := applyVpnTeardown [] interface r2.2
      (false, rb.2)
    else
      let r3 := ApplyMasquerade46 interface true r2.2
      if !r3.1 then
        let rb := applyVpnTeardown [] interface r3.2
        (false, rb.2)
      else
        markUsersAdd usernames interface [] r3.2

/-- `IpTables::ApplyVpnSetup`, split on `add` (the recursion of the source —
    rollback re-enters with `add = false` — is realised by `applyVpnAdd`
    calling `applyVpnTeardown`). -/
def ApplyVpnSetup (usernames : List String) (interface : String) (add : Bool)
    (w : World) : Bool × World :=
  if add then applyVpnAdd usernames interface w
  else applyVpnTeardown usernames interface w

/-- `IpTables::RequestVpnSetup`. -/
def RequestVpnSetup (usernames : List String) (interface : String)
    (w : World) : Bool × World :=
  ApplyVpnSetup usernames interface true w

/-- `IpTables::RemoveVpnSetup`. -/
def RemoveVpnSetup (usernames : List String) (interface : String)
    (w : World) : Bool × World :=
  ApplyVpnSetup usernames interface false w

/-- The booleans returned by the successive `PlugHole` calls that
    `PlugAllHoles` makes over one snapshot (the source discards them; this
    records them so theorems can speak about individual plug failures). -/
def plugHolesResults (snapshot : List Hole) (protocol : ProtocolEnum)
    (s : IpTablesState) (w : World) : List Bool :=
  match snapshot with
  | [] => []
  | hole :: rest =>
    let r := PlugHole hole.1 hole.2 protocol s w
    r.1 :: plugHolesResults rest protocol r.2.1 r.2.2

/-- The argument vectors issued by the username loop of a VPN teardown:
    for each username in order, the primary then the secondary mark-delete. -/
def markUsersDelTrace (usernames : List String) : List (List String) :=
  match usernames with
  | [] => []
  | u :: rest =>
    markArgv kIpTablesPath u false :: markArgv kIp6TablesPath u false ::
      markUsersDelTrace rest

/-- The interface-name validity condition exactly as the specification words
    it: length strictly below 16, only alphanumerics, hyphens and periods,
    and neither the first nor the last character is a hyphen or a period. -/
def interfaceNameSpecValid (iface : String) : Prop :=
  iface.toList.length < 16 ∧
  (∀ c ∈ iface.toList, isAlnum c = true ∨ c = '-' ∨ c = '.') ∧
  (∀ c, iface.toList.head? = some c → ¬(c = '-' ∨ c = '.')) ∧
  (∀ c, iface.toList.getLast? = some c → ¬(c = '-' ∨ c = '.'))

instance (iface : String) : Decidable (interfaceNameSpecValid iface) := by
  unfold interfaceNameSpecValid
  infer_instance

/-- The all-success environment. -/
def envT : Nat → Bool := fun _ => true

/-- The all-failure environment. -/
def envF : Nat → Bool := fun _ => false

/-- A fresh world whose every command succeeds. -/
def wT : World := ⟨envT, 0, []⟩

/-- A fresh world whose every command fails. -/
def wF : World := ⟨envF, 0, []⟩

/-- An environment whose `n`-th command fails and all others succeed. -/
def envFailAt (n : Nat) : Nat → Bool := fun k => !(k = n)

/-- A fresh world whose seventh command (index 6) fails: in a two-username
    VPN add run this is the primary mark rule of the second username. -/
def wVpnMarkFail : World := ⟨envFailAt 6, 0, []⟩

/-- A fresh world whose second command (index 1) fails: in a VPN add run
    this is the IPv6 routing-policy rule. -/
def wVpnIp6RuleFail : World := ⟨envFailAt 1, 0, []⟩

/-- A state with one tracked TCP hole, exercising the registry paths. -/
def sTracked : IpTablesState :=
  { ip6_enabled := false, tcp_holes := [(80, "iface")], udp_holes := [] }

section HelperLemmas

lemma bool_ne_true_eq_false {b : Bool} (h : b ≠ true) : b = false := by
  cases b <;> simp_all

lemma startsWithChar_eq_false_iff (l : List Char) (c : Char) :
    startsWithChar l c = false ↔ (∀ x, l.head? = some x → x ≠ c) := by
  cases l <;> simp [startsWithChar]

lemma endsWithChar_eq_false_iff (l : List Char) (c : Char) :
    endsWithChar l c = false ↔ (∀ x, l.getLast? = some x → x ≠ c) := by
  unfold endsWithChar
  cases h : l.getLast? <;> simp [h]

lemma startsWithChar_eq_true_elim (l : List Char) (c : Char) :
    startsWithChar l c = true → ∃ x, l.head? = some x ∧ x = c := by
  cases l <;> simp [startsWithChar]

lemma endsWithChar_eq_true_elim (l : List Char) (c : Char) :
    endsWithChar l c = true → ∃ x, l.getLast? = some x ∧ x = c := by
  unfold endsWithChar
  cases h : l.getLast? <;> simp [h]

/-- The source validity check agrees with the specification's wording. -/
lemma isValidInterfaceName_iff (iface : String) :
    IsValidInterfaceName iface = true ↔ interfaceNameSpecValid iface := by
  unfold IsValidInterfaceName interfaceNameSpecValid kInterfaceNameSize
  by_cases hlen : iface.toList.length ≥ 16
  · simp only [hlen, if_true]
    constructor
    · intro h; exact absurd h (by simp)
    · intro h; omega
  · simp only [hlen, if_false]
    by_cases hse : (startsWithChar iface.toList '-' || endsWithChar iface.toList '-' ||
        startsWithChar iface.toList '.' || endsWithChar iface.toList '.') = true
    · simp only [hse, if_true]
      constructor
      · intro h; exact absurd h (by simp)
      · rintro ⟨-, -, hh, hl⟩
        exfalso
        simp only [Bool.or_eq_true] at hse
        rcases hse with ((h1 | h2) | h3) | h4
        · obtain ⟨x, hx, rfl⟩ := startsWithChar_eq_true_elim _ _ h1
          exact hh _ hx (Or.inl rfl)
        · obtain ⟨x, hx, rfl⟩ := endsWithChar_eq_true_elim _ _ h2
          exact hl _ hx (Or.inl rfl)
        · obtain ⟨x, hx, rfl⟩ := startsWithChar_eq_true_elim _ _ h3
          exact hh _ hx (Or.inr rfl)
        · obtain ⟨x, hx, rfl⟩ := endsWithChar_eq_true_elim _ _ h4
          exact hl _ hx (Or.inr rfl)
    · rw [if_neg hse]
      rw [Bool.or_eq_true, Bool.or_eq_true, Bool.or_eq_true] at hse
      push_neg at hse
      obtain ⟨⟨⟨h1, h2⟩, h3⟩, h4⟩ := hse
      replace h1 := (startsWithChar_eq_false_iff _ _).mp (bool_ne_true_eq_false h1)
      replace h3 := (startsWithChar_eq_false_iff _ _).mp (bool_ne_true_eq_false h3)
      replace h2 := (endsWithChar_eq_false_iff _ _).mp (bool_ne_true_eq_false h2)
      replace h4 := (endsWithChar_eq_false_iff _ _).mp (bool_ne_true_eq_false h4)
      rw [List.all_eq_true]
      constructor
      · intro hall
        refine ⟨by omega, ?_, ?_, ?_⟩
        · intro c hc
          have := hall c hc
          simp only [Bool.or_eq_true, beq_iff_eq] at this
          tauto
        · intro c hc
          rintro (rfl | rfl)
          · exact h1 _ hc rfl
          · exact h3 _ hc rfl
        · intro c hc
          rintro (rfl | rfl)
          · exact h2 _ hc rfl
          · exact h4 _ hc rfl
      · rintro ⟨-, hchars, -, -⟩
        intro c hc
        have := hchars c hc
        simp only [Bool.or_eq_true, beq_iff_eq]
        tauto

lemma getHoles_setHoles_same (p : ProtocolEnum) (l : List Hole)
    (s : IpTablesState) : getHoles p (setHoles p l s) = l := by
  cases p <;> rfl

lemma getHoles_setHoles_ne (p q : ProtocolEnum) (l : List Hole)
    (s : IpTablesState) (h : p ≠ q) :
    getHoles q (setHoles p l s) = getHoles q s := by
  cases p <;> cases q <;> simp_all [getHoles, setHoles]

lemma setHoles_ip6 (p : ProtocolEnum) (l : List Hole) (s : IpTablesState) :
    (setHoles p l s).ip6_enabled = s.ip6_enabled := by
  cases p <;> rfl

lemma addAcceptRules_holes (p : ProtocolEnum) (port : Nat) (iface : String)
    (s : IpTablesState) (w : World) :
    (AddAcceptRules p port iface s w).2.1.tcp_holes = s.tcp_holes ∧
    (AddAcceptRules p port iface s w).2.1.udp_holes = s.udp_holes := by
  simp only [AddAcceptRules, AddAcceptRule, DeleteAcceptRule, execv]
  cases h4 : w.env w.idx <;> cases h6 : w.env (w.idx + 1) <;>
    cases hf : s.ip6_enabled <;> simp [h4, h6, hf]

lemma addAcceptRules_ip6_mono (p : ProtocolEnum) (port : Nat) (iface : String)
    (s : IpTablesState) (w : World) (h : s.ip6_enabled = true) :
    (AddAcceptRules p port iface s w).2.1.ip6_enabled = true := by
  simp only [AddAcceptRules, AddAcceptRule, DeleteAcceptRule, execv]
  cases h4 : w.env w.idx <;> cases h6 : w.env (w.idx + 1) <;> simp [h4, h6, h]

lemma addAcceptRules_trace (p : ProtocolEnum) (port : Nat) (iface : String)
    (s : IpTablesState) (w : World) :
    ∃ t, (AddAcceptRules p port iface s w).2.2.trace =
      w.trace ++ addAcceptArgv kIpTablesPath p port iface :: t := by
  simp only [AddAcceptRules, AddAcceptRule, DeleteAcceptRule, execv]
  cases h4 : w.env w.idx <;> cases h6 : w.env (w.idx + 1) <;>
    cases hf : s.ip6_enabled <;> simp [h4, h6, hf]

lemma deleteAcceptRules_state (p : ProtocolEnum) (port : Nat) (iface : String)
    (s : IpTablesState) (w : World) :
    (DeleteAcceptRules p port iface s w).2.1 = s := by
  simp only [DeleteAcceptRules, DeleteAcceptRule, execv]
  cases hf : s.ip6_enabled <;> simp [hf]

lemma plugHole_fail_state (port : Nat) (iface : String) (p : ProtocolEnum)
    (s : IpTablesState) (w : World)
    (h : (PlugHole port iface p s w).1 = false) :
    (PlugHole port iface p s w).2.1 = s := by
  unfold PlugHole at *
  by_cases hp : port = 0
  · simp [hp] at *
  · simp only [if_neg hp] at *
    by_cases hm : (port, iface) ∈ getHoles p s
    · simp only [hm, not_true_eq_false, if_false] at *
      cases hr : (DeleteAcceptRules p port iface s w).1
      · simp [hr, deleteAcceptRules_state] at *
      · simp [hr] at h
    · simp [hm] at *

lemma plugHole_state_cases (port : Nat) (iface : String) (p : ProtocolEnum)
    (s : IpTablesState) (w : World) :
    (PlugHole port iface p s w).2.1 = s ∨
    ((port, iface) ∈ getHoles p s ∧
      (PlugHole port iface p s w).2.1 =
        setHoles p ((getHoles p s).erase (port, iface)) s) := by
  unfold PlugHole
  by_cases hp : port = 0
  · simp [hp]
  · simp only [if_neg hp]
    by_cases hm : (port, iface) ∈ getHoles p s
    · simp only [hm, not_true_eq_false, if_false]
      cases hr : (DeleteAcceptRules p port iface s w).1
      · simp [hr, deleteAcceptRules_state]
      · simp [hr, deleteAcceptRules_state, hm]
    · simp [hm]

lemma plugHole_ip6 (port : Nat) (iface : String) (p : ProtocolEnum)
    (s : IpTablesState) (w : World) :
    (PlugHole port iface p s w).2.1.ip6_enabled = s.ip6_enabled := by
  rcases plugHole_state_cases port iface p s w with h | ⟨-, h⟩
  · rw [h]
  · rw [h, setHoles_ip6]

lemma punchHole_ip6_mono (port : Nat) (iface : String) (p : ProtocolEnum)
    (s : IpTablesState) (w : World) (hf : s.ip6_enabled = true) :
    (PunchHole port iface p s w).2.1.ip6_enabled = true := by
  unfold PunchHole
  by_cases hp : port = 0
  · simp [hp, hf]
  · simp only [if_neg hp]
    cases hv : IsValidInterfaceName iface
    · simp [hv, hf]
    · simp only [hv, Bool.not_true, Bool.false_eq_true, if_false]
      by_cases hm : (port, iface) ∈ getHoles p s
      · simp [hm, hf]
      · simp only [hm, if_false]
        cases hr : (AddAcceptRules p port iface s w).1
        · simp only [hr, Bool.not_false, if_true]
          exact addAcceptRules_ip6_mono p port iface s w hf
        · simp only [hr, Bool.not_true, Bool.false_eq_true, if_false]
          rw [setHoles_ip6]
          exact addAcceptRules_ip6_mono p port iface s w hf

lemma markUsersDel_world (usernames : List String) (rv : Bool) (w : World) :
    (markUsersDel usernames rv w).2 =
      ⟨w.env, w.idx + 2 * usernames.length,
       w.trace ++ markUsersDelTrace usernames⟩ := by
  induction usernames generalizing rv w with
  | nil => simp [markUsersDel, markUsersDelTrace]
  | cons u rest ih =>
    simp only [markUsersDel, ApplyMarkForUserTraffic46, ApplyMarkForUserTraffic,
      execv, Bool.and_false, Bool.false_eq_true, if_false, markUsersDelTrace]
    rw [ih]
    simp only [World.mk.injEq, List.length_cons]
    refine ⟨trivial, by omega, by simp⟩

lemma applyVpnTeardown_world (usernames : List String) (iface : String)
    (w : World) :
    (applyVpnTeardown usernames iface w).2 =
      ⟨w.env, w.idx + 4 + 2 * usernames.length,
       w.trace ++
         [ipRuleArgv IPVersionEnum.v4 false, ipRuleArgv IPVersionEnum.v6 false,
          masqueradeArgv kIpTablesPath iface false,
          masqueradeArgv kIp6TablesPath iface false] ++
         markUsersDelTrace usernames⟩ := by
  simp only [applyVpnTeardown, ApplyRuleForUserTraffic, execv,
    ApplyMasquerade46, ApplyMasquerade, Bool.and_false, Bool.false_eq_true,
    if_false]
  rw [markUsersDel_world]
  simp only [World.mk.injEq]
  refine ⟨trivial, trivial, by simp⟩

lemma plugHole_holes_other (port : Nat) (iface : String)
    (p q : ProtocolEnum) (s : IpTablesState) (w : World) (h : p ≠ q) :
    getHoles q (PlugHole port iface p s w).2.1 = getHoles q s := by
  rcases plugHole_state_cases port iface p s w with hc | ⟨-, hc⟩
  · rw [hc]
  · rw [hc, getHoles_setHoles_ne p q _ _ h]

lemma plugHolesList_holes_other (L : List Hole) (p q : ProtocolEnum)
    (s : IpTablesState) (w : World) (h : p ≠ q) :
    getHoles q (plugHolesList L p s w).1 = getHoles q s := by
  induction L generalizing s w with
  | nil => rfl
  | cons hd rest ih =>
    simp only [plugHolesList]
    rw [ih, plugHole_holes_other hd.1 hd.2 p q s w h]

lemma plugHolesList_mem (L : List Hole) (p : ProtocolEnum)
    (s : IpTablesState) (w : World) (x : Hole)
    (hmem : x ∈ getHoles p s) (hnot : x ∉ L) :
    x ∈ getHoles p (plugHolesList L p s w).1 := by
  induction L generalizing s w with
  | nil => exact hmem
  | cons hd rest ih =>
    simp only [plugHolesList]
    have hne : x ≠ hd := fun hx => hnot (hx ▸ List.mem_cons_self hd rest)
    have hnr : x ∉ rest := fun hx => hnot (List.mem_cons_of_mem hd hx)
    refine ih _ _ ?_ hnr
    rcases plugHole_state_cases hd.1 hd.2 p s w with hc | ⟨-, hc⟩
    · rw [hc]; exact hmem
    · rw [hc, getHoles_setHoles_same]
      exact (List.mem_erase_of_ne hne).mpr hmem

lemma plugHolesList_fail_nonempty (L : List Hole) (p : ProtocolEnum)
    (s : IpTablesState) (w : World) (hnd : L.Nodup)
    (hsub : ∀ x ∈ L, x ∈ getHoles p s)
    (hfail : false ∈ plugHolesResults L p s w) :
    getHoles p (plugHolesList L p s w).1 ≠ [] := by
  induction L generalizing s w with
  | nil => simp [plugHolesResults] at hfail
  | cons hd rest ih =>
    obtain ⟨hhd, hndr⟩ := List.nodup_cons.mp hnd
    simp only [plugHolesResults, List.mem_cons] at hfail
    simp only [plugHolesList]
    rcases hfail with hf | hf
    · have hst := plugHole_fail_state hd.1 hd.2 p s w hf.symm
      rw [hst]
      have hin : hd ∈ getHoles p (plugHolesList rest p s
          (PlugHole hd.1 hd.2 p s w).2.2).1 :=
        plugHolesList_mem rest p s _ hd
          (hsub hd (List.mem_cons_self hd rest)) hhd
      exact List.ne_nil_of_mem hin
    · refine ih _ _ hndr ?_ hf
      intro x hx
      rcases plugHole_state_cases hd.1 hd.2 p s w with hc | ⟨-, hc⟩
      · rw [hc]; exact hsub x (List.mem_cons_of_mem hd hx)
      · rw [hc, getHoles_setHoles_same]
        have hne : x ≠ hd := fun he => hhd (he ▸ hx)
        exact (List.mem_erase_of_ne hne).mpr
          (hsub x (List.mem_cons_of_mem hd hx))


end HelperLemmas

/-- C6: for every protocol, `PunchHole` rejects port 0 and every invalid
interface name before any external call, returning failure with no command
issued and no state change; validity holds exactly when the name is shorter
than 16 characters, consists only of alphanumerics, hyphens and periods, and
neither starts nor ends with a hyphen or period; and the specification's
example names are classified exactly as it states. -/
theorem claim_C6_punchHole_validation (protocol : ProtocolEnum) (port : Nat)
    (iface : String) (s : IpTablesState) (w : World) :
    (port = 0 ∨ IsValidInterfaceName iface = false →
      PunchHole port iface protocol s w = (false, s, w)) ∧
    (IsValidInterfaceName iface = true ↔ interfaceNameSpecValid iface) ∧
    (IsValidInterfaceName "reallylonginterfacename" = false ∧
     IsValidInterfaceName "with spaces" = false ∧
     IsValidInterfaceName "with$ymbols" = false ∧
     IsValidInterfaceName "-startdash" = false ∧
     IsValidInterfaceName "enddash-" = false ∧
     IsValidInterfaceName ".startdot" = false ∧
     IsValidInterfaceName "enddot." = false ∧
     IsValidInterfaceName "shortname" = true ∧
     IsValidInterfaceName "middle-dash" = true ∧
     IsValidInterfaceName "middle.dot" = true) := by
  refine ⟨?_, isValidInterfaceName_iff iface, by decide⟩
  intro h
  by_cases hp : port = 0
  · simp [PunchHole, hp]
  · rcases h with h | hbad
    · exact absurd h hp
    · simp [PunchHole, hp, hbad]

/-- C6 witness: port 0 is rejected with no command and no state change. -/
theorem claim_C6_witness :
    PunchHole 0 "iface" ProtocolEnum.tcp initState wT = (false, initState, wT) :=
  (claim_C6_punchHole_validation ProtocolEnum.tcp 0 "iface" initState wT).1
    (Or.inl rfl)

/-- C10: the empty interface name passes validation; `PunchHole` with it
(and a non-zero untracked port) proceeds to rule installation, its first
issued command being the primary add-accept; and the add-accept and
delete-accept argument vectors for the empty interface omit the
`-i <interface>` pair entirely. -/
theorem claim_C10_empty_interface (protocol : ProtocolEnum) (port : Nat)
    (path : String) (s : IpTablesState) (w : World) :
    IsValidInterfaceName "" = true ∧
    addAcceptArgv path protocol port "" =
      [path, "-I", "INPUT", "-p",
       (if protocol = ProtocolEnum.tcp then "tcp" else "udp"),
       "--dport", toString port, "-j", "ACCEPT", "-w"] ∧
    delAcceptArgv path protocol port "" =
      [path, "-D", "INPUT", "-p",
       (if protocol = ProtocolEnum.tcp then "tcp" else "udp"),
       "--dport", toString port, "-j", "ACCEPT", "-w"] ∧
    (port ≠ 0 → (port, "") ∉ getHoles protocol s →
      ∃ t, (PunchHole port "" protocol s w).2.2.trace =
        w.trace ++ addAcceptArgv kIpTablesPath protocol port "" :: t) := by
  refine ⟨rfl, by (simp [addAcceptArgv]; rfl),
    by simp [delAcceptArgv], ?_⟩
  intro hp hmem
  obtain ⟨t, ht⟩ := addAcceptRules_trace protocol port "" s w
  cases hr : (AddAcceptRules protocol port "" s w).1 <;>
    simp [PunchHole, hp, hmem, (rfl : IsValidInterfaceName "" = true), hr] <;>
    exact ⟨t, ht⟩

/-- C10 witness: punching TCP port 80 on the empty interface issues the
primary add-accept command first. -/
theorem claim_C10_witness :
    ∃ t, (PunchHole 80 "" ProtocolEnum.tcp initState wT).2.2.trace =
      [] ++ addAcceptArgv kIpTablesPath ProtocolEnum.tcp 80 "" :: t :=
  (claim_C10_empty_interface ProtocolEnum.tcp 80 "" initState wT).2.2.2
    (by decide) (by decide)

/-- C1: `AddAcceptRules` adds on the primary subsystem first and fails
immediately when that fails, with no secondary attempt; when both adds
succeed the capability flag becomes true and the call succeeds; when the
secondary add fails with the flag already true, the primary rule just added
is deleted and the call fails; when the secondary add fails with the flag
still false, the call succeeds and the flag stays false; and a true flag is
preserved by every subsequent operation. -/
theorem claim_C1_addAcceptRules_dual_stack (protocol : ProtocolEnum)
    (port : Nat) (iface : String) (s : IpTablesState) (w : World) :
    (w.env w.idx = false →
      AddAcceptRules protocol port iface s w =
        (false, s, ⟨w.env, w.idx + 1,
          w.trace ++ [addAcceptArgv kIpTablesPath protocol port iface]⟩)) ∧
    (w.env w.idx = true → w.env (w.idx + 1) = true →
      AddAcceptRules protocol port iface s w =
        (true, { s with ip6_enabled := true }, ⟨w.env, w.idx + 2,
          w.trace ++ [addAcceptArgv kIpTablesPath protocol port iface,
                      addAcceptArgv kIp6TablesPath protocol port iface]⟩)) ∧
    (w.env w.idx = true → w.env (w.idx + 1) = false → s.ip6_enabled = true →
      AddAcceptRules protocol port iface s w =
        (false, s, ⟨w.env, w.idx + 3,
          w.trace ++ [addAcceptArgv kIpTablesPath protocol port iface,
                      addAcceptArgv kIp6TablesPath protocol port iface,
                      delAcceptArgv kIpTablesPath protocol port iface]⟩)) ∧
    (w.env w.idx = true → w.env (w.idx + 1) = false → s.ip6_enabled = false →
      AddAcceptRules protocol port iface s w =
        (true, s, ⟨w.env, w.idx + 2,
          w.trace ++ [addAcceptArgv kIpTablesPath protocol port iface,
                      addAcceptArgv kIp6TablesPath protocol port iface]⟩)) ∧
    (s.ip6_enabled = true →
      (AddAcceptRules protocol port iface s w).2.1.ip6_enabled = true ∧
      (DeleteAcceptRules protocol port iface s w).2.1.ip6_enabled = true ∧
      (PunchHole port iface protocol s w).2.1.ip6_enabled = true ∧
      (PlugHole port iface protocol s w).2.1.ip6_enabled = true) := by
  refine ⟨?_, ?_, ?_, ?_, ?_⟩
  · intro h1
    simp [AddAcceptRules, AddAcceptRule, DeleteAcceptRule, execv, h1]
  · intro h1 h2
    simp [AddAcceptRules, AddAcceptRule, DeleteAcceptRule, execv, h1, h2]
  · intro h1 h2 h3
    simp [AddAcceptRules, AddAcceptRule, DeleteAcceptRule, execv, h1, h2, h3]
  · intro h1 h2 h3
    simp [AddAcceptRules, AddAcceptRule, DeleteAcceptRule, execv, h1, h2, h3]
  · intro hf
    exact ⟨addAcceptRules_ip6_mono protocol port iface s w hf,
      by rw [deleteAcceptRules_state]; exact hf,
      punchHole_ip6_mono port iface protocol s w hf,
      by rw [plugHole_ip6]; exact hf⟩

/-- C1 witness: a failing primary add aborts after a single command. -/
theorem claim_C1_witness :
    AddAcceptRules ProtocolEnum.tcp 80 "wlan0" initState wF =
      (false, initState, ⟨envF, 1,
        [addAcceptArgv kIpTablesPath ProtocolEnum.tcp 80 "wlan0"]⟩) :=
  (claim_C1_addAcceptRules_dual_stack ProtocolEnum.tcp 80 "wlan0" initState
    wF).1 rfl

/-- C7: `DeleteAcceptRules` always attempts the primary removal, attempts
the secondary removal only when the capability flag is true, and returns
the conjunction of the attempted removals (an un-attempted secondary
removal counts as success). -/
theorem claim_C7_deleteAcceptRules (protocol : ProtocolEnum) (port : Nat)
    (iface : String) (s : IpTablesState) (w : World) :
    (s.ip6_enabled = false →
      DeleteAcceptRules protocol port iface s w =
        (w.env w.idx, s, ⟨w.env, w.idx + 1,
          w.trace ++ [delAcceptArgv kIpTablesPath protocol port iface]⟩)) ∧
    (s.ip6_enabled = true →
      DeleteAcceptRules protocol port iface s w =
        (w.env w.idx && w.env (w.idx + 1), s, ⟨w.env, w.idx + 2,
          w.trace ++ [delAcceptArgv kIpTablesPath protocol port iface,
                      delAcceptArgv kIp6TablesPath protocol port iface]⟩)) := by
  constructor
  · intro hf
    simp [DeleteAcceptRules, DeleteAcceptRule, execv, hf]
  · intro hf
    simp [DeleteAcceptRules, DeleteAcceptRule, execv, hf]

/-- C7 witness: with the flag clear, only the primary removal is attempted
and its result is the overall result. -/
theorem claim_C7_witness :
    DeleteAcceptRules ProtocolEnum.tcp 80 "eth0" initState wT =
      (true, initState, ⟨envT, 1,
        [delAcceptArgv kIpTablesPath ProtocolEnum.tcp 80 "eth0"]⟩) :=
  (claim_C7_deleteAcceptRules ProtocolEnum.tcp 80 "eth0" initState wT).1 rfl

/-- C8: `ApplyMasquerade46` and `ApplyMarkForUserTraffic46` share one
policy, independent of the capability flag: on add, a primary failure
returns failure without attempting the secondary, and otherwise the
secondary is always attempted with overall success iff both succeed; on
remove, both subsystems are attempted unconditionally and the call succeeds
iff both removals succeeded. -/
theorem claim_C8_masquerade_mark_policy (iface user : String) (w : World) :
    (w.env w.idx = false →
      ApplyMasquerade46 iface true w =
        (false, ⟨w.env, w.idx + 1,
          w.trace ++ [masqueradeArgv kIpTablesPath iface true]⟩)) ∧
    (w.env w.idx = true →
      ApplyMasquerade46 iface true w =
        (w.env (w.idx + 1), ⟨w.env, w.idx + 2,
          w.trace ++ [masqueradeArgv kIpTablesPath iface true,
                      masqueradeArgv kIp6TablesPath iface true]⟩)) ∧
    (ApplyMasquerade46 iface false w =
      (w.env w.idx && w.env (w.idx + 1), ⟨w.env, w.idx + 2,
        w.trace ++ [masqueradeArgv kIpTablesPath iface false,
                    masqueradeArgv kIp6TablesPath iface false]⟩)) ∧
    (w.env w.idx = false →
      ApplyMarkForUserTraffic46 user true w =
        (false, ⟨w.env, w.idx + 1,
          w.trace ++ [markArgv kIpTablesPath user true]⟩)) ∧
    (w.env w.idx = true →
      ApplyMarkForUserTraffic46 user true w =
        (w.env (w.idx + 1), ⟨w.env, w.idx + 2,
          w.trace ++ [markArgv kIpTablesPath user true,
                      markArgv kIp6TablesPath user true]⟩)) ∧
    (ApplyMarkForUserTraffic46 user false w =
      (w.env w.idx && w.env (w.idx + 1), ⟨w.env, w.idx + 2,
        w.trace ++ [markArgv kIpTablesPath user false,
                    markArgv kIp6TablesPath user false]⟩)) := by
  refine ⟨?_, ?_, ?_, ?_, ?_, ?_⟩
  · intro h1
    simp [ApplyMasquerade46, ApplyMasquerade, execv, h1]
  · intro h1
    simp [ApplyMasquerade46, ApplyMasquerade, execv, h1]
  · simp [ApplyMasquerade46, ApplyMasquerade, execv]
  · intro h1
    simp [ApplyMarkForUserTraffic46, ApplyMarkForUserTraffic, execv, h1]
  · intro h1
    simp [ApplyMarkForUserTraffic46, ApplyMarkForUserTraffic, execv, h1]
  · simp [ApplyMarkForUserTraffic46, ApplyMarkForUserTraffic, execv]

/-- C8 witness: a successful primary masquerade add is followed by the
secondary attempt, whose result decides the call. -/
theorem claim_C8_witness :
    ApplyMasquerade46 "ifc0" true wT =
      (true, ⟨envT, 2, [masqueradeArgv kIpTablesPath "ifc0" true,
                        masqueradeArgv kIp6TablesPath "ifc0" true]⟩) :=
  (claim_C8_masquerade_mark_policy "ifc0" "alice" wT).2.1 rfl

/-- C4: a successful `PunchHole` makes an immediately repeated identical
`PunchHole` succeed while issuing no command and changing nothing; a punch
of an already-tracked pair succeeds without commands or state change; and a
punch whose `AddAcceptRules` fails returns failure with the registry
unchanged. -/
theorem claim_C4_punchHole_idempotent (port : Nat) (iface : String)
    (protocol : ProtocolEnum) (s : IpTablesState) (w : World) :
    (∀ s2 w2, PunchHole port iface protocol s w = (true, s2, w2) →
      PunchHole port iface protocol s2 w2 = (true, s2, w2)) ∧
    (port ≠ 0 → IsValidInterfaceName iface = true →
      (port, iface) ∈ getHoles protocol s →
      PunchHole port iface protocol s w = (true, s, w)) ∧
    (∀ s2 w2, port ≠ 0 → IsValidInterfaceName iface = true →
      (port, iface) ∉ getHoles protocol s →
      AddAcceptRules protocol port iface s w = (false, s2, w2) →
      PunchHole port iface protocol s w = (false, s2, w2) ∧
      s2.tcp_holes = s.tcp_holes ∧ s2.udp_holes = s.udp_holes) := by
  refine ⟨?_, ?_, ?_⟩
  · intro s2 w2 h
    by_cases hp : port = 0
    · simp [PunchHole, hp] at h
    · cases hv : IsValidInterfaceName iface
      · simp [PunchHole, hp, hv] at h
      · by_cases hm : (port, iface) ∈ getHoles protocol s
        · simp only [PunchHole, if_neg hp, hv, Bool.not_true,
            Bool.false_eq_true, if_false, hm, if_true] at h
          obtain ⟨rfl, rfl⟩ := (Prod.mk.injEq _ _ _ _).mp
            ((Prod.mk.injEq _ _ _ _).mp h).2
          simp [PunchHole, hp, hv, hm]
        · cases hr : (AddAcceptRules protocol port iface s w).1
          · simp [PunchHole, hp, hv, hm, hr] at h
          · simp only [PunchHole, if_neg hp, hv, Bool.not_true,
              Bool.false_eq_true, if_false, hm, hr, Bool.not_false,
              if_true] at h
            obtain ⟨rfl, rfl⟩ := (Prod.mk.injEq _ _ _ _).mp
              ((Prod.mk.injEq _ _ _ _).mp h).2
            have hmem2 : (port, iface) ∈
                getHoles protocol (setHoles protocol
                  ((port, iface) :: getHoles protocol
                    (AddAcceptRules protocol port iface s w).2.1)
                  (AddAcceptRules protocol port iface s w).2.1) := by
              rw [getHoles_setHoles_same]
              exact List.mem_cons_self _ _
            simp [PunchHole, hp, hv, hmem2]
  · intro hp hv hm
    simp [PunchHole, hp, hv, hm]
  · intro s2 w2 hp hv hm hadd
    have hholes := addAcceptRules_holes protocol port iface s w
    rw [hadd] at hholes
    refine ⟨?_, hholes.1, hholes.2⟩
    simp [PunchHole, hp, hv, hm, hadd]

/-- C4 witness: a punch of an already-tracked pair succeeds without issuing
any command and leaves everything unchanged. -/
theorem claim_C4_witness :
    PunchHole 80 "iface" ProtocolEnum.tcp sTracked wT =
      (true, sTracked, wT) :=
  (claim_C4_punchHole_idempotent 80 "iface" ProtocolEnum.tcp sTracked
    wT).2.1 (by decide) (by decide) (by decide)

/-- C5: plugging an untracked pair fails with no command and no state
change; plugging a tracked pair whose rule removal fails returns failure
with the pair still tracked; plugging a tracked pair whose removal succeeds
removes the pair and succeeds; and punch–plug–plug on (80, "iface") gives
success, success, failure. -/
theorem claim_C5_plugHole_not_idempotent (port : Nat) (iface : String)
    (protocol : ProtocolEnum) (s : IpTablesState) (w : World) :
    ((port, iface) ∉ getHoles protocol s →
      PlugHole port iface protocol s w = (false, s, w)) ∧
    (port ≠ 0 → (port, iface) ∈ getHoles protocol s →
      (DeleteAcceptRules protocol port iface s w).1 = false →
      PlugHole port iface protocol s w =
        (false, s, (DeleteAcceptRules protocol port iface s w).2.2) ∧
      (port, iface) ∈ getHoles protocol (PlugHole port iface protocol s w).2.1) ∧
    (port ≠ 0 → (port, iface) ∈ getHoles protocol s →
      (DeleteAcceptRules protocol port iface s w).1 = true →
      PlugHole port iface protocol s w =
        (true, setHoles protocol ((getHoles protocol s).erase (port, iface)) s,
         (DeleteAcceptRules protocol port iface s w).2.2)) ∧
    ((PunchHole 80 "iface" ProtocolEnum.tcp initState wT).1 = true ∧
     (PlugHole 80 "iface" ProtocolEnum.tcp
       (PunchHole 80 "iface" ProtocolEnum.tcp initState wT).2.1
       (PunchHole 80 "iface" ProtocolEnum.tcp initState wT).2.2).1 = true ∧
     (PlugHole 80 "iface" ProtocolEnum.tcp
       (PlugHole 80 "iface" ProtocolEnum.tcp
         (PunchHole 80 "iface" ProtocolEnum.tcp initState wT).2.1
         (PunchHole 80 "iface" ProtocolEnum.tcp initState wT).2.2).2.1
       (PlugHole 80 "iface" ProtocolEnum.tcp
         (PunchHole 80 "iface" ProtocolEnum.tcp initState wT).2.1
         (PunchHole 80 "iface" ProtocolEnum.tcp initState wT).2.2).2.2).1
       = false) := by
  refine ⟨?_, ?_, ?_, rfl, rfl, rfl⟩
  · intro hm
    by_cases hp : port = 0
    · simp [PlugHole, hp]
    · simp [PlugHole, hp, hm]
  · intro hp hm hd
    have hst := deleteAcceptRules_state protocol port iface s w
    constructor
    · simp [PlugHole, hp, hm, hd, hst]
    · simp [PlugHole, hp, hm, hd, hst]
  · intro hp hm hd
    have hst := deleteAcceptRules_state protocol port iface s w
    simp [PlugHole, hp, hm, hd, hst]

/-- C5 witness: plugging a never-punched pair fails with no command. -/
theorem claim_C5_witness :
    PlugHole 80 "iface" ProtocolEnum.tcp initState wT =
      (false, initState, wT) :=
  (claim_C5_plugHole_not_idempotent 80 "iface" ProtocolEnum.tcp initState
    wT).1 (by decide)

/-- C3 counterexample: with the IPv4 routing rule succeeding and the IPv6
routing rule failing, the rollback does issue delete commands for the IPv6
routing rule and for the masquerade rule on both subsystems, contrary to the
claim that only step 1 is undone. -/
theorem claim_C3_counterexample :
    (ApplyVpnSetup ["testuser0", "testuser1"] "ifc0" true wVpnIp6RuleFail).1
      = false ∧
    (ApplyVpnSetup ["testuser0", "testuser1"] "ifc0" true
        wVpnIp6RuleFail).2.trace =
      [ipRuleArgv IPVersionEnum.v4 true, ipRuleArgv IPVersionEnum.v6 true,
       ipRuleArgv IPVersionEnum.v4 false, ipRuleArgv IPVersionEnum.v6 false,
       masqueradeArgv kIpTablesPath "ifc0" false,
       masqueradeArgv kIp6TablesPath "ifc0" false] ∧
    masqueradeArgv kIpTablesPath "ifc0" false ∈
      (ApplyVpnSetup ["testuser0", "testuser1"] "ifc0" true
        wVpnIp6RuleFail).2.trace ∧
    ipRuleArgv IPVersionEnum.v6 false ∈
      (ApplyVpnSetup ["testuser0", "testuser1"] "ifc0" true
        wVpnIp6RuleFail).2.trace :=
  ⟨rfl, rfl, by decide, by decide⟩

/-- C3 (amended): when the IPv4 routing rule add succeeds and the IPv6 one
fails, the call aborts with failure and the rollback is the remove pass over
the empty username list: it issues best-effort delete commands for the IPv4
routing rule, the IPv6 routing rule and the masquerade rule on both
subsystems, and attempts no mark rule. -/
theorem claim_C3_ip6_rule_failure_rollback (usernames : List String)
    (iface : String) (w : World)
    (h1 : w.env w.idx = true) (h2 : w.env (w.idx + 1) = false) :
    ApplyVpnSetup usernames iface true w =
      (false, ⟨w.env, w.idx + 6,
        w.trace ++
          [ipRuleArgv IPVersionEnum.v4 true, ipRuleArgv IPVersionEnum.v6 true,
           ipRuleArgv IPVersionEnum.v4 false, ipRuleArgv IPVersionEnum.v6 false,
           masqueradeArgv kIpTablesPath iface false,
           masqueradeArgv kIp6TablesPath iface false]⟩) := by
  show applyVpnAdd usernames iface w = _
  simp only [applyVpnAdd, ApplyRuleForUserTraffic, execv, h1, h2,
    Bool.not_true, Bool.not_false, Bool.false_eq_true, if_false, if_true]
  rw [applyVpnTeardown_world]
  simp [markUsersDelTrace]

/-- C3 witness: the amended rollback shape at a concrete failing run. -/
theorem claim_C3_witness :
    ApplyVpnSetup ["alice"] "tun0" true wVpnIp6RuleFail =
      (false, ⟨envFailAt 1, 6,
        [ipRuleArgv IPVersionEnum.v4 true, ipRuleArgv IPVersionEnum.v6 true,
         ipRuleArgv IPVersionEnum.v4 false, ipRuleArgv IPVersionEnum.v6 false,
         masqueradeArgv kIpTablesPath "tun0" false,
         masqueradeArgv kIp6TablesPath "tun0" false]⟩) :=
  claim_C3_ip6_rule_failure_rollback ["alice"] "tun0" wVpnIp6RuleFail rfl rfl

/-- C2 counterexample: in the exact claimed scenario (both routing rules,
the masquerade and the first username's marks succeed, the second
username's mark install fails) the rollback segment of the trace is the
routing rules, then the masquerade, then the first username's marks — not
the order the claim states (marks, masquerade, routing rules). -/
theorem claim_C2_counterexample :
    (ApplyVpnSetup ["testuser0", "testuser1"] "ifc0" true wVpnMarkFail).1
      = false ∧
    (ApplyVpnSetup ["testuser0", "testuser1"] "ifc0" true
        wVpnMarkFail).2.trace =
      [ipRuleArgv IPVersionEnum.v4 true, ipRuleArgv IPVersionEnum.v6 true,
       masqueradeArgv kIpTablesPath "ifc0" true,
       masqueradeArgv kIp6TablesPath "ifc0" true,
       markArgv kIpTablesPath "testuser0" true,
       markArgv kIp6TablesPath "testuser0" true,
       markArgv kIpTablesPath "testuser1" true,
       ipRuleArgv IPVersionEnum.v4 false, ipRuleArgv IPVersionEnum.v6 false,
       masqueradeArgv kIpTablesPath "ifc0" false,
       masqueradeArgv kIp6TablesPath "ifc0" false,
       markArgv kIpTablesPath "testuser0" false,
       markArgv kIp6TablesPath "testuser0" false] ∧
    ¬((ApplyVpnSetup ["testuser0", "testuser1"] "ifc0" true
        wVpnMarkFail).2.trace.drop 7 =
      [markArgv kIpTablesPath "testuser0" false,
       markArgv kIp6TablesPath "testuser0" false,
       masqueradeArgv kIpTablesPath "ifc0" false,
       masqueradeArgv kIp6TablesPath "ifc0" false,
       ipRuleArgv IPVersionEnum.v4 false, ipRuleArgv IPVersionEnum.v6 false]) :=
  ⟨rfl, rfl, by decide⟩

/-- C2 (amended): with at least two usernames, when both routing rules, the
masquerade and the first username's marks are installed and the second
username's mark install then fails (on either subsystem), the call returns
failure and the rollback removes both routing-policy rules, then the
masquerade rule, then the first username's mark rules, in that order; the
failing username's mark rule is never attempted for rollback removal and
usernames after the failing one are never attempted at all. -/
theorem claim_C2_username_failure_rollback (env : Nat → Bool) (u1 u2 : String)
    (rest : List String) (iface : String) :
    (env 0 = true → env 1 = true → env 2 = true → env 3 = true →
     env 4 = true → env 5 = true → env 6 = false →
      ApplyVpnSetup (u1 :: u2 :: rest) iface true ⟨env, 0, []⟩ =
        (false, ⟨env, 13,
          [ipRuleArgv IPVersionEnum.v4 true, ipRuleArgv IPVersionEnum.v6 true,
           masqueradeArgv kIpTablesPath iface true,
           masqueradeArgv kIp6TablesPath iface true,
           markArgv kIpTablesPath u1 true, markArgv kIp6TablesPath u1 true,
           markArgv kIpTablesPath u2 true,
           ipRuleArgv IPVersionEnum.v4 false, ipRuleArgv IPVersionEnum.v6 false,
           masqueradeArgv kIpTablesPath iface false,
           masqueradeArgv kIp6TablesPath iface false,
           markArgv kIpTablesPath u1 false,
           markArgv kIp6TablesPath u1 false]⟩)) ∧
    (env 0 = true → env 1 = true → env 2 = true → env 3 = true →
     env 4 = true → env 5 = true → env 6 = true → env 7 = false →
      ApplyVpnSetup (u1 :: u2 :: rest) iface true ⟨env, 0, []⟩ =
        (false, ⟨env, 14,
          [ipRuleArgv IPVersionEnum.v4 true, ipRuleArgv IPVersionEnum.v6 true,
           masqueradeArgv kIpTablesPath iface true,
           masqueradeArgv kIp6TablesPath iface true,
           markArgv kIpTablesPath u1 true, markArgv kIp6TablesPath u1 true,
           markArgv kIpTablesPath u2 true, markArgv kIp6TablesPath u2 true,
           ipRuleArgv IPVersionEnum.v4 false, ipRuleArgv IPVersionEnum.v6 false,
           masqueradeArgv kIpTablesPath iface false,
           masqueradeArgv kIp6TablesPath iface false,
           markArgv kIpTablesPath u1 false,
           markArgv kIp6TablesPath u1 false]⟩)) := by
  constructor
  · intro h0 h1 h2 h3 h4 h5 h6
    show applyVpnAdd (u1 :: u2 :: rest) iface ⟨env, 0, []⟩ = _
    simp only [applyVpnAdd, markUsersAdd, ApplyRuleForUserTraffic,
      ApplyMasquerade46, ApplyMasquerade, ApplyMarkForUserTraffic46,
      ApplyMarkForUserTraffic, execv, List.nil_append, List.cons_append,
      List.singleton_append]
    norm_num [h0, h1, h2, h3, h4, h5, h6]
    rw [applyVpnTeardown_world]
    simp [markUsersDelTrace]
  · intro h0 h1 h2 h3 h4 h5 h6 h7
    show applyVpnAdd (u1 :: u2 :: rest) iface ⟨env, 0, []⟩ = _
    simp only [applyVpnAdd, markUsersAdd, ApplyRuleForUserTraffic,
      ApplyMasquerade46, ApplyMasquerade, ApplyMarkForUserTraffic46,
      ApplyMarkForUserTraffic, execv, List.nil_append, List.cons_append,
      List.singleton_append]
    norm_num [h0, h1, h2, h3, h4, h5, h6, h7]
    rw [applyVpnTeardown_world]
    simp [markUsersDelTrace]

/-- C2 witness: the amended rollback shape at a concrete failing run. -/
theorem claim_C2_witness :
    ApplyVpnSetup ["testuser0", "testuser1", "testuser2"] "ifc0" true
        ⟨envFailAt 6, 0, []⟩ =
      (false, ⟨envFailAt 6, 13,
        [ipRuleArgv IPVersionEnum.v4 true, ipRuleArgv IPVersionEnum.v6 true,
         masqueradeArgv kIpTablesPath "ifc0" true,
         masqueradeArgv kIp6TablesPath "ifc0" true,
         markArgv kIpTablesPath "testuser0" true,
         markArgv kIp6TablesPath "testuser0" true,
         markArgv kIpTablesPath "testuser1" true,
         ipRuleArgv IPVersionEnum.v4 false, ipRuleArgv IPVersionEnum.v6 false,
         masqueradeArgv kIpTablesPath "ifc0" false,
         masqueradeArgv kIp6TablesPath "ifc0" false,
         markArgv kIpTablesPath "testuser0" false,
         markArgv kIp6TablesPath "testuser0" false]⟩) :=
  (claim_C2_username_failure_rollback (envFailAt 6) "testuser0" "testuser1"
    ["testuser2"] "ifc0").1 rfl rfl rfl rfl rfl rfl rfl

/-- C9: `PlugAllHoles` plugs a snapshot of every tracked pair for both
protocols through the normal `PlugHole` path; a normal return (no `CHECK`
abort) guarantees both registries are empty, and any plug failure in either
phase forces the `CHECK` abort (`none`) rather than a normal return. -/
theorem claim_C9_plugAllHoles (s : IpTablesState) (w : World)
    (htcp : s.tcp_holes.Nodup) (hudp : s.udp_holes.Nodup) :
    (∀ s2 w2, PlugAllHoles s w = some (s2, w2) →
      s2.tcp_holes = [] ∧ s2.udp_holes = []) ∧
    (false ∈ plugHolesResults s.tcp_holes ProtocolEnum.tcp s w →
      PlugAllHoles s w = none) ∧
    (false ∈ plugHolesResults
        (plugHolesList s.tcp_holes ProtocolEnum.tcp s w).1.udp_holes
        ProtocolEnum.udp
        (plugHolesList s.tcp_holes ProtocolEnum.tcp s w).1
        (plugHolesList s.tcp_holes ProtocolEnum.tcp s w).2 →
      PlugAllHoles s w = none) := by
  refine ⟨?_, ?_, ?_⟩
  · intro s2 w2 h
    unfold PlugAllHoles at h
    by_cases c1 : (plugHolesList
        (plugHolesList s.tcp_holes ProtocolEnum.tcp s w).1.udp_holes
        ProtocolEnum.udp (plugHolesList s.tcp_holes ProtocolEnum.tcp s w).1
        (plugHolesList s.tcp_holes ProtocolEnum.tcp s w).2).1.tcp_holes.length
        = 0
    · by_cases c2 : (plugHolesList
          (plugHolesList s.tcp_holes ProtocolEnum.tcp s w).1.udp_holes
          ProtocolEnum.udp (plugHolesList s.tcp_holes ProtocolEnum.tcp s w).1
          (plugHolesList s.tcp_holes ProtocolEnum.tcp s w).2).1.udp_holes.length
          = 0
      · simp only [c1, c2, if_true] at h
        obtain ⟨hs, -⟩ := Prod.mk.injEq _ _ _ _ ▸ Option.some.inj h
        subst hs
        exact ⟨List.length_eq_zero.mp c1, List.length_eq_zero.mp c2⟩
      · simp [c1, c2] at h
    · simp [c1] at h
  · intro hfail
    have hne : getHoles ProtocolEnum.tcp
        (plugHolesList s.tcp_holes ProtocolEnum.tcp s w).1 ≠ [] :=
      plugHolesList_fail_nonempty s.tcp_holes ProtocolEnum.tcp s w htcp
        (fun x hx => hx) hfail
    have hpres : getHoles ProtocolEnum.tcp
        (plugHolesList
          (plugHolesList s.tcp_holes ProtocolEnum.tcp s w).1.udp_holes
          ProtocolEnum.udp (plugHolesList s.tcp_holes ProtocolEnum.tcp s w).1
          (plugHolesList s.tcp_holes ProtocolEnum.tcp s w).2).1 =
        getHoles ProtocolEnum.tcp
          (plugHolesList s.tcp_holes ProtocolEnum.tcp s w).1 :=
      plugHolesList_holes_other _ ProtocolEnum.udp ProtocolEnum.tcp _ _
        (by intro hc; exact ProtocolEnum.noConfusion hc)
    unfold PlugAllHoles
    rw [if_neg]
    intro hlen
    apply hne
    rw [← hpres] at *
    exact List.length_eq_zero.mp hlen
  · intro hfail
    have hndu : (plugHolesList s.tcp_holes ProtocolEnum.tcp s w).1.udp_holes.Nodup := by
      have hp : getHoles ProtocolEnum.udp
          (plugHolesList s.tcp_holes ProtocolEnum.tcp s w).1 =
          getHoles ProtocolEnum.udp s :=
        plugHolesList_holes_other _ ProtocolEnum.tcp ProtocolEnum.udp _ _
          (by intro hc; exact ProtocolEnum.noConfusion hc)
      show (getHoles ProtocolEnum.udp
        (plugHolesList s.tcp_holes ProtocolEnum.tcp s w).1).Nodup
      rw [hp]
      exact hudp
    have hne : getHoles ProtocolEnum.udp
        (plugHolesList
          (plugHolesList s.tcp_holes ProtocolEnum.tcp s w).1.udp_holes
          ProtocolEnum.udp (plugHolesList s.tcp_holes ProtocolEnum.tcp s w).1
          (plugHolesList s.tcp_holes ProtocolEnum.tcp s w).2).1 ≠ [] :=
      plugHolesList_fail_nonempty _ ProtocolEnum.udp _ _ hndu
        (fun x hx => hx) hfail
    unfold PlugAllHoles
    by_cases c1 : (plugHolesList
        (plugHolesList s.tcp_holes ProtocolEnum.tcp s w).1.udp_holes
        ProtocolEnum.udp (plugHolesList s.tcp_holes ProtocolEnum.tcp s w).1
        (plugHolesList s.tcp_holes ProtocolEnum.tcp s w).2).1.tcp_holes.length
        = 0
    · rw [if_pos c1, if_neg]
      intro hlen
      exact hne (List.length_eq_zero.mp hlen)
    · rw [if_neg c1]

/-- C9 witness: a clean run over the empty registries returns normally with
both registries empty. -/
theorem claim_C9_witness :
    initState.tcp_holes = [] ∧ initState.udp_holes = [] :=
  (claim_C9_plugAllHoles initState wT List.nodup_nil List.nodup_nil).1
    initState wT rfl

end Firewalld
